import Mathlib

/-!
Verification development for the FuzbAISim client repository.

Shallow embedding of the agent and environment logic of
sim/FuzbAIAgent_Example.py and sim/GymEnv.py. Floating-point
arithmetic in the source is modelled exactly over the rationals:
every constant in the source (0.9, 0.1, 0.5, 0.75, 1.5, 0.05, 0.2,
5, 10, 0.995) is a dyadic or decimal rational, and the only
operations used are +, -, *, abs, min, max and comparisons, all of
which the rationals carry exactly.
-/

/-- np.clip of the source: clamp x into the interval from lo to hi
(numpy semantics with lo below hi: max lo (min x hi)). -/
def clip (x lo hi : ℚ) : ℚ := max lo (min x hi)

/-- MotorCommand record as built by both agents: a dictionary with
driveID, rotationTargetPosition, rotationVelocity,
translationTargetPosition and translationVelocity. -/
structure MotorCommand where
  driveID : ℕ
  rotationTargetPosition : ℚ
  rotationVelocity : ℚ
  translationTargetPosition : ℚ
  translationVelocity : ℚ
  deriving Repr, DecidableEq

/-- Team string of PlayerAgentRL, modelled as an inductive. -/
inductive Team where
  | red : Team
  | blue : Team
  deriving Repr, DecidableEq

namespace PlayerAgentRL

/-- Mutable state of a PlayerAgentRL instance, as set up by
PlayerAgentRL.__init__ and mutated by process_data. The python dicts
prev_positions and prev_angles (with .get defaults 0.5 and 0.0) are
modelled as functions into Option: none means the key is absent, and
reading goes through getD with the default of the source. -/
structure AgentState where
  team : Team
  exploration_rate : ℚ
  exploration_decay : ℚ
  min_exploration : ℚ
  prev_positions : ℕ → Option ℚ
  prev_angles : ℕ → Option ℚ
  rods : List ℕ

/-- PlayerAgentRL.__init__: exploration constants, empty smoothing
dicts, and the rod mapping (the source assigns the list 0,1,2,3 in
both the red and the blue branch). -/
def init (team : Team) : AgentState :=
  { team := team
    exploration_rate := 1.0
    exploration_decay := 0.995
    min_exploration := 0.1
    prev_positions := fun _ => none
    prev_angles := fun _ => none
    rods := if team = Team.red then [0, 1, 2, 3] else [0, 1, 2, 3] }

/-- The all-zero action tensor np.zeros((n, 3)) substituted for
malformed input. -/
def zeroAction (n : ℕ) : List (List ℚ) :=
  List.replicate n (List.replicate 3 0)

/-- Shape test of the source line rl_action.shape != (len(self.rods), 3):
a list-of-rows action has shape (n, 3) when there are n rows of
length 3. -/
def actionShapeOK (a : List (List ℚ)) (n : ℕ) : Bool :=
  a.length = n && a.all (fun row => row.length = 3)

/-- Loop body of process_data over the enumerated rods paired with
their action rows: per rod, unpack the row, exponentially smooth the
translation and rotation targets (weight 0.9 previous, 0.1 new),
store them back into the dicts and emit the clipped MotorCommand.
The per-rod try/except of the source can only fire on exceptions
from the row unpack, which the shape validation before the loop has
already ruled out, so no command is ever dropped. -/
def runRods : List (ℕ × List ℚ) → (ℕ → Option ℚ) → (ℕ → Option ℚ) →
    List MotorCommand × (ℕ → Option ℚ) × (ℕ → Option ℚ)
  | [], pos, ang => ([], pos, ang)
  | (rod, row) :: rest, pos, ang =>
    let trans_dir := row.getD 0 0
    let rot_dir := row.getD 1 0
    let velocity := row.getD 2 0
    let smoothed_trans := 0.9 * (pos rod).getD 0.5 + 0.1 * (0.5 + trans_dir * 0.5)
    let smoothed_rot := 0.9 * (ang rod).getD 0.0 + 0.1 * (rot_dir * 0.75)
    let pos2 := Function.update pos rod (some smoothed_trans)
    let ang2 := Function.update ang rod (some smoothed_rot)
    let cmd : MotorCommand :=
      { driveID := rod + 1
        rotationTargetPosition := clip smoothed_rot (-1) 1
        rotationVelocity := clip (velocity * 1.5) 0.1 2.0
        translationTargetPosition := clip smoothed_trans 0 1
        translationVelocity := clip (velocity * 1.5) 0.1 2.0 }
    let r := runRods rest pos2 ang2
    (cmd :: r.1, r.2)

/-- PlayerAgentRL.process_data. The incoming rl_action is an Option:
none models both a python None and a value that is not a numpy
array (the first validation replaces either with zeros); a some
carries the array as rows. Wrong-shaped arrays are replaced with the
zero action by the second validation. The function is total:
nothing is raised to the caller. -/
def process_data (s : AgentState) (rl_action : Option (List (List ℚ))) :
    List MotorCommand × AgentState :=
  let n := s.rods.length
  let act0 := match rl_action with
    | none => zeroAction n
    | some a => a
  let act := if actionShapeOK act0 n then act0 else zeroAction n
  let r := runRods (s.rods.zip act) s.prev_positions s.prev_angles
  (r.1, { s with prev_positions := r.2.1, prev_angles := r.2.2 })

end PlayerAgentRL

namespace PlayerAgent

/-- Kick state machine state of the heuristic PlayerAgent:
demo_state holds the integer phase of the source (0 Idle, 1 WindUp,
2 Kick) and demo_t the clock reading recorded on entry. -/
structure DemoState where
  demo_state : ℕ
  demo_t : ℚ
  deriving Repr, DecidableEq

/-- One tick of the goalie kick state machine of
PlayerAgent.process_data, driven by an injected clock reading now in
seconds (the source reads time.time(); command construction on each
branch is independent of the transition logic and is omitted here).
Phase 0 keeps oscillating while now - demo_t < 5 and otherwise
enters phase 1 stamping the clock; phase 1 enters phase 2 when
now - demo_t > 0.05; phase 2 re-enters phase 0 when
now - demo_t > 0.2. -/
def demoStep (now : ℚ) (s : DemoState) : DemoState :=
  if s.demo_state = 0 then
    if now - s.demo_t < 5 then s
    else { demo_state := 1, demo_t := now }
  else if s.demo_state = 1 then
    if now - s.demo_t > 0.05 then { demo_state := 2, demo_t := now }
    else s
  else if s.demo_state = 2 then
    if now - s.demo_t > 0.2 then { demo_state := 0, demo_t := now }
    else s
  else s

end PlayerAgent

namespace FoosballEnv

/-- One camera record of the telemetry dictionary camData, with the
fields read by the environment. -/
structure CamRecord where
  ball_x : ℚ
  ball_y : ℚ
  ball_vx : ℚ
  ball_vy : ℚ
  rod_position_calib : List ℚ
  rod_angle : List ℚ
  deriving Repr, DecidableEq

/-- Outcome of the telemetry fetch self.sim.getCameraDict(1) as seen
by _get_obs: the call raised, the returned dictionary lacks the
camData key, or camData is present as a (possibly empty) list of
records. -/
inductive CamFetch where
  | err : CamFetch
  | missingKey : CamFetch
  | mk : List CamRecord → CamFetch

/-- The all-zero fallback observation
np.zeros(self.observation_space.shape): 20 floats. -/
def zeroObs : List ℚ := List.replicate 20 0

/-- Observation vector assembled by _get_obs from the first camera
record: ball position, ball velocity, first 8 rod positions, first
8 rod angles. -/
def obsVec (r : CamRecord) : List ℚ :=
  [r.ball_x, r.ball_y, r.ball_vx, r.ball_vy]
    ++ r.rod_position_calib.take 8 ++ r.rod_angle.take 8

/-- FoosballEnv._get_obs: on a raised fetch, a missing or empty
camData list, or an assembled vector whose shape is not (20,), it
returns the all-zero observation; otherwise the assembled vector.
Total: it never raises. -/
def getObs : CamFetch → List ℚ
  | CamFetch.err => zeroObs
  | CamFetch.missingKey => zeroObs
  | CamFetch.mk [] => zeroObs
  | CamFetch.mk (r :: _) =>
    if (obsVec r).length = 20 then obsVec r else zeroObs

/-- Mutable state of a FoosballEnv instance together with the two
simulator-owned cells it writes (sim.score, read and reset by
_compute_reward, and sim.motorCommandsExternal1/2, written by step).
score.1 is score[0] (a goal by red, the agent team) and score.2 is
score[1] (a goal by blue). p1_rods models sim.p1.rods, the rod list
of the simulator-side player agent; the simulator is outside this
repository, and PlayerAgentRL instances carry the list 0,1,2,3
matching the declared 4 by 3 action space. -/
structure EnvState where
  prev_rod_positions : List ℚ
  prev_rod_angles : List ℚ
  episode_reward : ℚ
  score : ℤ × ℤ
  p1_rods : List ℕ
  motorCommandsExternal1 : List MotorCommand
  motorCommandsExternal2 : List MotorCommand
  deriving Repr, DecidableEq

/-- FoosballEnv.__init__ state: zero previous positions and angles
for the 4 managed rods, zero episode reward and score. -/
def initEnv : EnvState :=
  { prev_rod_positions := List.replicate 4 0
    prev_rod_angles := List.replicate 4 0
    episode_reward := 0
    score := (0, 0)
    p1_rods := [0, 1, 2, 3]
    motorCommandsExternal1 := []
    motorCommandsExternal2 := [] }

/-- Sum of elementwise absolute differences,
np.sum(np.abs(a - b)) on equal-length vectors. -/
def sumAbsDiff (a b : List ℚ) : ℚ :=
  (List.zipWith (fun x y => |x - y|) a b).sum

/-- FoosballEnv._compute_reward on the current telemetry record:
baseline 0.1, a bonus for a moving ball, shaking penalties against
the stored previous rod positions and angles (which it then
overwrites with the current ones), an own-goal penalty for a fast
ball in either x direction, and the two score blocks of the source
in their source order: the penalty block subtracts 5.0 and resets
the score whenever either side has scored, and the bonus block runs
on the score left behind by the penalty block. Returns the reward
and the updated state. -/
def computeReward (cam : CamRecord) (st : EnvState) : ℚ × EnvState :=
  let reward : ℚ := 0.1
  let reward := if |cam.ball_vx| > 0.2 ∨ |cam.ball_vy| > 0.2 then reward + 0.1 else reward
  let current_positions := cam.rod_position_calib.take 4
  let current_angles := cam.rod_angle.take 4
  let movement_penalty := sumAbsDiff current_positions st.prev_rod_positions
  let rotation_penalty := sumAbsDiff current_angles st.prev_rod_angles
  let reward := if movement_penalty > 0.2 then reward - movement_penalty * 0.5 else reward
  let reward := if rotation_penalty > 5 then reward - rotation_penalty * 0.1 else reward
  let reward := if cam.ball_vx < -0.2 then reward - 0.5
    else if cam.ball_vx > 0.2 then reward - 0.5 else reward
  let pr : ℚ × ℤ × ℤ :=
    if st.score.2 > 0 then (reward - 5.0, (0, 0))
    else if st.score.1 > 0 then (reward - 5.0, (0, 0))
    else (reward, st.score)
  let br : ℚ × ℤ × ℤ :=
    if pr.2.1 > 0 then (pr.1 + 10.0, (0, 0))
    else if pr.2.2 > 0 then (pr.1 + 10.0, (0, 0))
    else pr
  (br.1, { st with
    prev_rod_positions := current_positions
    prev_rod_angles := current_angles
    score := br.2 })

/-- Command-building loop of FoosballEnv.step over sim.p1.rods with
running index i: unpacking action[i] raises in the source when the
row is missing or does not hold exactly 3 entries, modelled as none
(step has no validation and no exception handler). On success each
rod gets a command whose translation target is the clipped
incremental move from the stored previous position and whose
rotation target is the clipped incremental rotation scaled by 0.75. -/
def stepLoop (prevPos prevAng : List ℚ) (action : List (List ℚ)) :
    List ℕ → ℕ → Option (List MotorCommand)
  | [], _ => some []
  | rod :: rest, i =>
    match action.get? i with
    | none => none
    | some row =>
      if row.length = 3 then
        let trans_dir := row.getD 0 0
        let rot_dir := row.getD 1 0
        let velocity := row.getD 2 0
        let trans_smooth := clip (prevPos.getD i 0 + trans_dir * 0.1) 0 1
        let rot_smooth := clip (prevAng.getD i 0 + rot_dir * 0.1) (-1) 1
        let cmd : MotorCommand :=
          { driveID := rod + 1
            rotationTargetPosition := rot_smooth * 0.75
            rotationVelocity := clip (velocity * 1.5) 0.1 2.0
            translationTargetPosition := trans_smooth
            translationVelocity := clip (velocity * 1.5) 0.1 2.0 }
        match stepLoop prevPos prevAng action rest (i + 1) with
        | none => none
        | some cmds => some (cmd :: cmds)
      else none

/-- FoosballEnv.step: build the per-rod commands (raising, modelled
none, on a wrong-shaped action), store their targets as the previous
positions and angles, hand the commands to the simulator, read the
observation from the telemetry fetch, compute the reward on the
current camera record, accumulate the episode reward and return the
(observation, reward, done, info) tuple with done always False and
info always the empty dict. The fixed 20 ms sleep has no effect on
this state and is not modelled. -/
def step (st : EnvState) (action : List (List ℚ)) (fetch : CamFetch)
    (cam : CamRecord) :
    Option (List ℚ × ℚ × Bool × List (String × ℚ) × EnvState) :=
  match stepLoop st.prev_rod_positions st.prev_rod_angles action st.p1_rods 0 with
  | none => none
  | some commands =>
    let st1 := { st with
      prev_rod_positions := commands.map (fun c => c.translationTargetPosition)
      prev_rod_angles := commands.map (fun c => c.rotationTargetPosition)
      motorCommandsExternal1 := commands
      motorCommandsExternal2 := commands }
    let rs := computeReward cam st1
    let st2 := { rs.2 with episode_reward := rs.2.episode_reward + rs.1 }
    some (getObs fetch, rs.1, false, [], st2)

/-- FoosballEnv.reset: re-read telemetry through _get_obs (the
obs-is-None fallback of the source is dead, _get_obs always returns
a vector), zero the episode reward, return the observation. -/
def reset (st : EnvState) (fetch : CamFetch) : List ℚ × EnvState :=
  (getObs fetch, { st with episode_reward := 0 })

/-- A neutral camera record: ball at rest in the field center
(the field is 1210 by 700 per the observation space bounds), all
rod positions and angles zero. -/
def camNeutral : CamRecord :=
  { ball_x := 605
    ball_y := 350
    ball_vx := 0
    ball_vy := 0
    rod_position_calib := List.replicate 8 0
    rod_angle := List.replicate 8 0 }

end FoosballEnv

/-- The declared ranges of the MotorCommand fields: translation
target in the unit interval, rotation target in the symmetric unit
interval, both velocities in the clamp interval from 0.1 to 2.0. -/
def cmdInRange (c : MotorCommand) : Prop :=
  0 ≤ c.translationTargetPosition ∧ c.translationTargetPosition ≤ 1 ∧
  -1 ≤ c.rotationTargetPosition ∧ c.rotationTargetPosition ≤ 1 ∧
  0.1 ≤ c.rotationVelocity ∧ c.rotationVelocity ≤ 2.0 ∧
  0.1 ≤ c.translationVelocity ∧ c.translationVelocity ≤ 2.0

instance (c : MotorCommand) : Decidable (cmdInRange c) := by
  unfold cmdInRange; infer_instance

namespace FoosballEnv

theorem sumAbsDiff_self (l : List ℚ) : sumAbsDiff l l = 0 := by
  induction l with
  | nil => simp [sumAbsDiff]
  | cons x xs ih =>
    simp only [sumAbsDiff, List.zipWith_cons_cons, List.sum_cons, sub_self,
      abs_zero, zero_add]
    exact ih

theorem getObs_length (f : CamFetch) : (getObs f).length = 20 := by
  cases f with
  | err => simp [getObs, zeroObs]
  | missingKey => simp [getObs, zeroObs]
  | mk l =>
    cases l with
    | nil => simp [getObs, zeroObs]
    | cons r rest =>
      simp only [getObs]
      split
      · assumption
      · simp [zeroObs]

end FoosballEnv

theorem le_clip (x lo hi : ℚ) : lo ≤ clip x lo hi :=
  le_max_left lo (min x hi)

theorem clip_le (x lo hi : ℚ) (h : lo ≤ hi) : clip x lo hi ≤ hi :=
  max_le h (min_le_right x hi)

namespace PlayerAgentRL

theorem shapeOK_zeroAction (n : ℕ) : actionShapeOK (zeroAction n) n = true := by
  simp [actionShapeOK, zeroAction, List.all_eq_true, List.mem_replicate]

theorem runRods_length (l : List (ℕ × List ℚ)) (pos ang : ℕ → Option ℚ) :
    (runRods l pos ang).1.length = l.length := by
  induction l generalizing pos ang with
  | nil => simp [runRods]
  | cons hd tl ih =>
    obtain ⟨rod, row⟩ := hd
    simp [runRods, ih]

theorem runRods_mem_range (l : List (ℕ × List ℚ)) (pos ang : ℕ → Option ℚ)
    (c : MotorCommand) (hc : c ∈ (runRods l pos ang).1) : cmdInRange c := by
  induction l generalizing pos ang with
  | nil => simp [runRods] at hc
  | cons hd tl ih =>
    obtain ⟨rod, row⟩ := hd
    simp only [runRods, List.mem_cons] at hc
    rcases hc with rfl | hc
    · refine ⟨le_clip _ _ _, clip_le _ _ _ (by norm_num), le_clip _ _ _,
        clip_le _ _ _ (by norm_num), le_clip _ _ _, clip_le _ _ _ (by norm_num),
        le_clip _ _ _, clip_le _ _ _ (by norm_num)⟩
    · exact ih _ _ hc

theorem actionShapeOK_length {a : List (List ℚ)} {n : ℕ}
    (h : actionShapeOK a n = true) : a.length = n := by
  simp only [actionShapeOK, Bool.and_eq_true, decide_eq_true_eq] at h
  exact h.1

theorem process_data_length (s : AgentState) (a : Option (List (List ℚ))) :
    (process_data s a).1.length = s.rods.length := by
  have hz : (zeroAction s.rods.length).length = s.rods.length := by
    simp [zeroAction]
  cases a with
  | none =>
    simp only [process_data, if_pos (shapeOK_zeroAction s.rods.length)]
    rw [runRods_length, List.length_zip, hz, min_self]
  | some l =>
    by_cases h : actionShapeOK l s.rods.length
    · simp only [process_data, if_pos h]
      rw [runRods_length, List.length_zip, actionShapeOK_length h, min_self]
    · simp only [process_data, if_neg h]
      rw [runRods_length, List.length_zip, hz, min_self]

end PlayerAgentRL

namespace FoosballEnv

theorem stepLoop_mem_range (action : List (List ℚ)) (prevPos prevAng : List ℚ)
    (rods : List ℕ) :
    ∀ (i : ℕ) (cmds : List MotorCommand),
      stepLoop prevPos prevAng action rods i = some cmds →
      ∀ c ∈ cmds, cmdInRange c := by
  induction rods with
  | nil =>
    intro i cmds h c hc
    simp only [stepLoop, Option.some.injEq] at h
    subst h
    simp at hc
  | cons rod rest ih =>
    intro i cmds h c hc
    simp only [stepLoop] at h
    cases hrow : action.get? i with
    | none =>
      simp only [hrow] at h
      exact Option.noConfusion h
    | some row =>
      simp only [hrow] at h
      by_cases h3 : row.length = 3
      · rw [if_pos h3] at h
        cases hrec : stepLoop prevPos prevAng action rest (i + 1) with
        | none => rw [hrec] at h; exact absurd h (by simp)
        | some cmds2 =>
          rw [hrec] at h
          simp only [Option.some.injEq] at h
          subst h
          rcases List.mem_cons.mp hc with rfl | hc2
          · have h75 : ∀ x : ℚ, -1 ≤ x → x ≤ 1 →
                -1 ≤ x * 0.75 ∧ x * 0.75 ≤ 1 := by
              intro x h1 h2
              constructor <;> nlinarith
            obtain ⟨ha, hb⟩ := h75 _ (le_clip _ _ _) (clip_le _ _ _ (by norm_num))
            exact ⟨le_clip _ _ _, clip_le _ _ _ (by norm_num), ha, hb,
              le_clip _ _ _, clip_le _ _ _ (by norm_num),
              le_clip _ _ _, clip_le _ _ _ (by norm_num)⟩
          · exact ih (i + 1) cmds2 hrec c hc2
      · rw [if_neg h3] at h; exact absurd h (by simp)

theorem stepLoop_isSome (prevPos prevAng : List ℚ) (action : List (List ℚ))
    (rods : List ℕ) :
    ∀ i : ℕ,
      (∀ k, k < rods.length → ∃ row, action.get? (i + k) = some row ∧ row.length = 3) →
      (stepLoop prevPos prevAng action rods i).isSome = true := by
  induction rods with
  | nil => intro i _; simp [stepLoop]
  | cons rod rest ih =>
    intro i h
    obtain ⟨row, hrow, hlen3⟩ := h 0 (by simp)
    rw [Nat.add_zero] at hrow
    have hrec := ih (i + 1) (fun k hk => by
      have hc := h (k + 1) (by simpa using Nat.succ_lt_succ hk)
      rwa [show i + (k + 1) = i + 1 + k by omega] at hc)
    simp only [stepLoop, hrow, if_pos hlen3]
    cases hr : stepLoop prevPos prevAng action rest (i + 1) with
    | none => rw [hr] at hrec; simp at hrec
    | some cmds => simp

end FoosballEnv

open PlayerAgentRL PlayerAgent FoosballEnv

/-- Claim C1: for every agent state and every action input that is
missing, not an array, or of the wrong shape, PlayerAgentRL.process_data
substitutes the all-zero action tensor, never raises (the embedding is a
total function), and returns exactly one MotorCommand per managed rod,
each equal to the command an explicit zero action produces. -/
theorem C1_invalid_action_zero_substitution (s : AgentState)
    (a : Option (List (List ℚ)))
    (h : a = none ∨ ∃ l, a = some l ∧ actionShapeOK l s.rods.length = false) :
    process_data s a = process_data s (some (zeroAction s.rods.length)) ∧
    (process_data s a).1.length = s.rods.length := by
  refine ⟨?_, process_data_length s a⟩
  rcases h with rfl | ⟨l, rfl, hbad⟩
  · simp only [process_data, if_pos (shapeOK_zeroAction s.rods.length)]
  · simp only [process_data, if_pos (shapeOK_zeroAction s.rods.length),
      if_neg (by simp [hbad] : ¬actionShapeOK l s.rods.length = true)]

/-- Witness for C1: the freshly initialised red agent with a missing
action input. -/
theorem C1_witness :
    process_data (init Team.red) none =
      process_data (init Team.red) (some (zeroAction (init Team.red).rods.length)) ∧
    (process_data (init Team.red) none).1.length = (init Team.red).rods.length :=
  C1_invalid_action_zero_substitution (init Team.red) none (Or.inl rfl)

/-- Claim C8 counterexample: after one process_data call on the fresh
agent the exploration rate is still 1.0, not the decayed and floored
value max (1.0 * 0.995) 0.1 = 0.995 the claim demands: process_data
never touches the exploration fields. -/
theorem C8_counterexample :
    (process_data (init Team.red) none).2.exploration_rate ≠
      max ((init Team.red).exploration_rate * (init Team.red).exploration_decay)
        (init Team.red).min_exploration := by
  show (1.0 : ℚ) ≠ max (1.0 * 0.995) 0.1
  rw [max_eq_left (by norm_num)]
  norm_num

/-- Claim C8 as amended: every call to PlayerAgentRL.process_data leaves
the exploration rate exactly unchanged; the decay factor and floor are
initialised but never applied. -/
theorem C8_exploration_rate_unchanged (s : AgentState)
    (a : Option (List (List ℚ))) :
    (process_data s a).2.exploration_rate = s.exploration_rate := rfl

/-- Claim C2 evaluation at the failing input: with the agent team having
scored (score (1, 0)) and an otherwise neutral telemetry record,
_compute_reward returns -4.9, i.e. it applies the -5.0 penalty branch and
resets the score, so the +10.0 scoring-bonus block never fires; the
opponent-goal state (0, 1) also yields -4.9. -/
theorem C2_goal_reward_evaluation :
    (computeReward camNeutral { initEnv with score := (1, 0) }).1 = -4.9 ∧
    (computeReward camNeutral { initEnv with score := (1, 0) }).2.score = (0, 0) ∧
    (computeReward camNeutral { initEnv with score := (0, 1) }).1 = -4.9 := by
  have htake : (List.replicate 8 (0 : ℚ)).take 4 = List.replicate 4 (0 : ℚ) := by
    decide
  refine ⟨?_, ?_, ?_⟩ <;>
    simp [computeReward, camNeutral, initEnv, htake, sumAbsDiff_self] <;>
    norm_num

/-- Claim C7: with a zero-velocity ball centered in the field, the
current rod positions and angles equal to the stored previous ones, and
no goal recorded, _compute_reward returns exactly the baseline 0.1. -/
theorem C7_baseline_reward (cam : CamRecord) (st : EnvState)
    (_hx : cam.ball_x = 605) (_hy : cam.ball_y = 350)
    (hvx : cam.ball_vx = 0) (hvy : cam.ball_vy = 0)
    (hp : cam.rod_position_calib.take 4 = st.prev_rod_positions)
    (ha : cam.rod_angle.take 4 = st.prev_rod_angles)
    (hs : st.score = (0, 0)) :
    (computeReward cam st).1 = 0.1 := by
  simp only [computeReward, hvx, hvy, hp, ha, hs, sumAbsDiff_self]
  norm_num

/-- Witness for C7: the neutral centered telemetry record against the
initial environment state. -/
theorem C7_witness : (computeReward camNeutral initEnv).1 = 0.1 :=
  C7_baseline_reward camNeutral initEnv rfl rfl rfl rfl (by decide) (by decide) rfl

/-- Claim C9: _get_obs and reset are total and always return a
20-element observation, substituting the all-zero vector on a raised
fetch, a missing camData key, an empty camData list, or an assembled
vector of the wrong shape. -/
theorem C9_obs_reset_total (fetch : CamFetch) (st : EnvState) :
    (getObs fetch).length = 20 ∧
    (reset st fetch).1.length = 20 ∧
    getObs CamFetch.err = zeroObs ∧
    getObs CamFetch.missingKey = zeroObs ∧
    getObs (CamFetch.mk []) = zeroObs ∧
    (∀ (r : CamRecord) (rest : List CamRecord), (obsVec r).length ≠ 20 →
      getObs (CamFetch.mk (r :: rest)) = zeroObs) := by
  refine ⟨getObs_length fetch, getObs_length fetch, rfl, rfl, rfl, ?_⟩
  intro r rest h20
  simp [getObs, h20]

/-- Witness for C9: a raised telemetry fetch against the initial
environment state. -/
theorem C9_witness :
    (getObs CamFetch.err).length = 20 ∧ (reset initEnv CamFetch.err).1.length = 20 :=
  ⟨(C9_obs_reset_total CamFetch.err initEnv).1,
   (C9_obs_reset_total CamFetch.err initEnv).2.1⟩

/-- Claim C10: whenever FoosballEnv.step returns, the episode-done flag
is False and the info dict is empty, so no sequence of step calls ever
terminates an episode through the step interface. -/
theorem C10_step_never_done (st : EnvState) (action : List (List ℚ))
    (fetch : CamFetch) (cam : CamRecord)
    (res : List ℚ × ℚ × Bool × List (String × ℚ) × EnvState)
    (h : step st action fetch cam = some res) :
    res.2.2.1 = false ∧ res.2.2.2.1 = [] := by
  simp only [step] at h
  cases hl : stepLoop st.prev_rod_positions st.prev_rod_angles action st.p1_rods 0 with
  | none =>
    rw [hl] at h
    exact Option.noConfusion h
  | some commands =>
    simp only [hl] at h
    have heq := Option.some.inj h
    subst heq
    exact ⟨rfl, rfl⟩

/-- Witness for C10: a well-formed zero action on the initial
environment state with a failing telemetry fetch. -/
theorem C10_witness :
    ((step initEnv (zeroAction 4) CamFetch.err camNeutral).get (by decide)).2.2.1 = false ∧
    ((step initEnv (zeroAction 4) CamFetch.err camNeutral).get (by decide)).2.2.2.1 = [] :=
  C10_step_never_done initEnv (zeroAction 4) CamFetch.err camNeutral _
    (Option.some_get (by decide)).symm

/-- Claim C3 counterexample: a 2 by 3 action (shape differing from the
declared 4 by 3 action space) makes FoosballEnv.step fail on the per-rod
unpacking (modelled as none, the source raises an IndexError), instead
of substituting a zero action and returning a tuple as the claim
states. -/
theorem C3_counterexample :
    step initEnv [[0, 0, 0], [0, 0, 0]] CamFetch.err camNeutral = none := by
  rfl

/-- Claim C3 as amended: FoosballEnv.step performs no shape validation
itself; for every action holding a well-formed row of length 3 for each
managed rod it returns an (observation, reward, done, info) tuple, and
a wrong-shaped action makes the unpacking raise (the zero substitution
of the claim lives in PlayerAgentRL.process_data, not in step). -/
theorem C3_step_no_validation (st : EnvState) (action : List (List ℚ))
    (fetch : CamFetch) (cam : CamRecord)
    (hlen : st.p1_rods.length ≤ action.length)
    (hrows : ∀ row ∈ action, row.length = 3) :
    (step st action fetch cam).isSome = true := by
  have hcond : ∀ k, k < st.p1_rods.length →
      ∃ row, action.get? (0 + k) = some row ∧ row.length = 3 := by
    intro k hk
    have hk2 : k < action.length := lt_of_lt_of_le hk hlen
    refine ⟨action.get ⟨k, hk2⟩, ?_, hrows _ (action.get_mem k hk2)⟩
    rw [Nat.zero_add]
    exact List.get?_eq_get hk2
  have hloop := stepLoop_isSome st.prev_rod_positions st.prev_rod_angles action
    st.p1_rods 0 hcond
  simp only [step]
  cases hl : stepLoop st.prev_rod_positions st.prev_rod_angles action st.p1_rods 0 with
  | none => rw [hl] at hloop; exact absurd hloop (by simp)
  | some commands => simp [hl]

/-- Witness for C3 as amended: a well-formed 4 by 3 zero action on the
initial environment state. -/
theorem C3_witness :
    (step initEnv [[0, 0, 0], [0, 0, 0], [0, 0, 0], [0, 0, 0]]
      CamFetch.err camNeutral).isSome = true :=
  C3_step_no_validation initEnv [[0, 0, 0], [0, 0, 0], [0, 0, 0], [0, 0, 0]]
    CamFetch.err camNeutral (by decide) (by decide)

/-- Reward computation leaves the simulator command cells untouched:
it only rewrites the stored previous rod data and the score. -/
theorem computeReward_motor1 (cam : CamRecord) (st : EnvState) :
    (computeReward cam st).2.motorCommandsExternal1 = st.motorCommandsExternal1 := rfl

/-- Claim C4: every MotorCommand emitted by PlayerAgentRL.process_data
and every MotorCommand handed to the simulator by FoosballEnv.step has
all fields within the declared ranges, for every input action tensor
(clamping holds regardless of input magnitude). -/
theorem C4_commands_in_ranges :
    (∀ (s : AgentState) (a : Option (List (List ℚ))) (c : MotorCommand),
      c ∈ (process_data s a).1 → cmdInRange c) ∧
    (∀ (st : EnvState) (action : List (List ℚ)) (fetch : CamFetch) (cam : CamRecord)
      (res : List ℚ × ℚ × Bool × List (String × ℚ) × EnvState),
      step st action fetch cam = some res →
      ∀ c ∈ res.2.2.2.2.motorCommandsExternal1, cmdInRange c) := by
  constructor
  · intro s a c hc
    cases a with
    | none =>
      simp only [process_data, if_pos (shapeOK_zeroAction s.rods.length)] at hc
      exact runRods_mem_range _ _ _ c hc
    | some l =>
      by_cases h : actionShapeOK l s.rods.length
      · simp only [process_data, if_pos h] at hc
        exact runRods_mem_range _ _ _ c hc
      · simp only [process_data, if_neg h] at hc
        exact runRods_mem_range _ _ _ c hc
  · intro st action fetch cam res h c hc
    simp only [step] at h
    cases hl : stepLoop st.prev_rod_positions st.prev_rod_angles action st.p1_rods 0 with
    | none =>
      rw [hl] at h
      exact Option.noConfusion h
    | some commands =>
      simp only [hl] at h
      have heq := Option.some.inj h
      subst heq
      have hmem : c ∈ commands := by
        simpa only [computeReward_motor1] using hc
      exact stepLoop_mem_range action st.prev_rod_positions st.prev_rod_angles
        st.p1_rods 0 commands hl c hmem

/-- Witness for C4: the first command the fresh red agent emits on a
missing action input lies inside all declared ranges. -/
theorem C4_witness :
    cmdInRange ((process_data (init Team.red) none).1.head
      (List.ne_nil_of_length_pos (by rw [process_data_length]; decide))) :=
  C4_commands_in_ranges.1 (init Team.red) none _ (List.head_mem _)

/-- Claim C6 counterexample: with the WindUp entry stamped at time 0
and the clock reading exactly 0.05 (so at least 50 ms have elapsed),
the state machine stays in WindUp instead of transitioning to Kick:
the source guard is strict (greater than 0.05). -/
theorem C6_counterexample :
    (0.05 : ℚ) ≤ (0.05 : ℚ) - 0 ∧
    (demoStep 0.05 { demo_state := 1, demo_t := 0 }).demo_state ≠ 2 := by
  constructor
  · norm_num
  · show (if (0.05 : ℚ) - 0 > 0.05 then ({ demo_state := 2, demo_t := 0.05 } : DemoState)
      else { demo_state := 1, demo_t := 0 }).demo_state ≠ 2
    rw [if_neg (by norm_num)]
    norm_num

/-- Claim C6 as amended: the kick state machine transitions from Idle
(0) to WindUp (1) once at least 5 seconds have elapsed since the Idle
entry stamp, from WindUp to Kick (2) once strictly more than 50 ms have
elapsed since the WindUp stamp, from Kick back to Idle once strictly
more than 200 ms have elapsed since the Kick stamp, and makes no other
transition; each transition stamps the current clock reading. -/
theorem C6_state_machine (now : ℚ) (s : DemoState) :
    (s.demo_state = 0 →
      (5 ≤ now - s.demo_t → demoStep now s = { demo_state := 1, demo_t := now }) ∧
      (now - s.demo_t < 5 → demoStep now s = s)) ∧
    (s.demo_state = 1 →
      (0.05 < now - s.demo_t → demoStep now s = { demo_state := 2, demo_t := now }) ∧
      (now - s.demo_t ≤ 0.05 → demoStep now s = s)) ∧
    (s.demo_state = 2 →
      (0.2 < now - s.demo_t → demoStep now s = { demo_state := 0, demo_t := now }) ∧
      (now - s.demo_t ≤ 0.2 → demoStep now s = s)) := by
  refine ⟨fun h0 => ⟨fun hge => ?_, fun hlt => ?_⟩,
    fun h1 => ⟨fun hgt => ?_, fun hle => ?_⟩,
    fun h2 => ⟨fun hgt => ?_, fun hle => ?_⟩⟩
  · simp [demoStep, h0, not_lt.mpr hge]
  · simp [demoStep, h0, hlt]
  · simp [demoStep, h1, hgt]
  · simp [demoStep, h1, not_lt.mpr hle]
  · simp [demoStep, h2, hgt]
  · simp [demoStep, h2, not_lt.mpr hle]

/-- Witness for C6 as amended: one full cycle of transitions at
concrete clock readings 5, 0.1 and 0.3. -/
theorem C6_witness :
    demoStep 5 { demo_state := 0, demo_t := 0 } = { demo_state := 1, demo_t := 5 } ∧
    demoStep 0.1 { demo_state := 1, demo_t := 0 } = { demo_state := 2, demo_t := 0.1 } ∧
    demoStep 0.3 { demo_state := 2, demo_t := 0 } = { demo_state := 0, demo_t := 0.3 } :=
  ⟨((C6_state_machine 5 { demo_state := 0, demo_t := 0 }).1 rfl).1 (by norm_num),
   ((C6_state_machine 0.1 { demo_state := 1, demo_t := 0 }).2.1 rfl).1 (by norm_num),
   ((C6_state_machine 0.3 { demo_state := 2, demo_t := 0 }).2.2 rfl).1 (by norm_num)⟩

/-- Rods not processed by the loop keep their stored smoothing values:
runRods only updates the dict entries of the rods it visits. -/
theorem runRods_frame (l : List (ℕ × List ℚ)) (pos ang : ℕ → Option ℚ) (r : ℕ)
    (h : r ∉ l.map Prod.fst) :
    (runRods l pos ang).2.1 r = pos r ∧ (runRods l pos ang).2.2 r = ang r := by
  induction l generalizing pos ang with
  | nil => exact ⟨rfl, rfl⟩
  | cons hd tl ih =>
    obtain ⟨rod, row⟩ := hd
    simp only [List.map_cons, List.mem_cons, not_or] at h
    obtain ⟨hne, hnotin⟩ := h
    simp only [runRods]
    refine ⟨?_, ?_⟩
    · rw [(ih _ _ hnotin).1, Function.update_noteq hne]
    · rw [(ih _ _ hnotin).2, Function.update_noteq hne]

/-- On a zero action, the stored smoothing values of every visited rod
(with the rod list free of duplicates) are updated by the exponential
smoothing map with zero input. -/
theorem runRods_zero_smoothing (rods : List ℕ) (pos ang : ℕ → Option ℚ) (r : ℕ)
    (hnd : rods.Nodup) (hmem : r ∈ rods) :
    (runRods (rods.zip (zeroAction rods.length)) pos ang).2.1 r =
      some (0.9 * (pos r).getD 0.5 + 0.1 * (0.5 + 0 * 0.5)) ∧
    (runRods (rods.zip (zeroAction rods.length)) pos ang).2.2 r =
      some (0.9 * (ang r).getD 0.0 + 0.1 * (0 * 0.75)) := by
  induction rods generalizing pos ang with
  | nil => cases hmem
  | cons rod rest ih =>
    obtain ⟨hnotmem, hnd2⟩ := List.nodup_cons.mp hnd
    have hzip : (rod :: rest).zip (zeroAction (rod :: rest).length)
        = (rod, List.replicate 3 (0 : ℚ)) :: rest.zip (zeroAction rest.length) := by
      simp [zeroAction, List.replicate_succ]
    have hget0 : (List.replicate 3 (0 : ℚ)).getD 0 0 = 0 := rfl
    have hget1 : (List.replicate 3 (0 : ℚ)).getD 1 0 = 0 := rfl
    rcases List.mem_cons.mp hmem with heq | hr
    · subst heq
      have hfst : r ∉ (rest.zip (zeroAction rest.length)).map Prod.fst := by
        rw [List.map_fst_zip rest (zeroAction rest.length)
          (by simp [zeroAction])]
        exact hnotmem
      rw [hzip]
      simp only [runRods]
      obtain ⟨hfp, hfa⟩ := runRods_frame (rest.zip (zeroAction rest.length)) _ _ r hfst
      rw [hfp, hfa, Function.update_same, Function.update_same, hget0, hget1]
      exact ⟨rfl, rfl⟩
    · have hne : r ≠ rod := fun e => hnotmem (e ▸ hr)
      rw [hzip]
      simp only [runRods]
      obtain ⟨hp, ha⟩ := ih (Function.update pos rod _) (Function.update ang rod _) hnd2 hr
      rw [hp, ha, Function.update_noteq hne, Function.update_noteq hne]
      exact ⟨rfl, rfl⟩

/-- Claim C5: under a zero action tensor, the stored smoothed
translation of every managed rod moves toward the neutral 0.5 and the
stored smoothed rotation toward 0: each process_data call shrinks the
distance to the neutral target by exactly the factor 0.9, and the
neutral targets are fixed points of the smoothing update, so repeated
zero-action calls converge monotonically. -/
theorem C5_zero_action_smoothing (s : AgentState) (hr : s.rods = [0, 1, 2, 3])
    (r : ℕ) (hmem : r ∈ s.rods) :
    (process_data s (some (zeroAction s.rods.length))).2.prev_positions r =
      some (0.9 * (s.prev_positions r).getD 0.5 + 0.1 * 0.5) ∧
    |((process_data s (some (zeroAction s.rods.length))).2.prev_positions r).getD 0.5 - 0.5|
      = 0.9 * |(s.prev_positions r).getD 0.5 - 0.5| ∧
    (process_data s (some (zeroAction s.rods.length))).2.prev_angles r =
      some (0.9 * (s.prev_angles r).getD 0.0) ∧
    |((process_data s (some (zeroAction s.rods.length))).2.prev_angles r).getD 0.0|
      = 0.9 * |(s.prev_angles r).getD 0.0| ∧
    ((s.prev_positions r).getD 0.5 = 0.5 →
      ((process_data s (some (zeroAction s.rods.length))).2.prev_positions r).getD 0.5 = 0.5) ∧
    ((s.prev_angles r).getD 0.0 = 0 →
      ((process_data s (some (zeroAction s.rods.length))).2.prev_angles r).getD 0.0 = 0) := by
  have hnd : s.rods.Nodup := by rw [hr]; decide
  have hpd : (process_data s (some (zeroAction s.rods.length))).2.prev_positions =
      (runRods (s.rods.zip (zeroAction s.rods.length)) s.prev_positions s.prev_angles).2.1 := by
    simp only [process_data, if_pos (shapeOK_zeroAction s.rods.length)]
  have had : (process_data s (some (zeroAction s.rods.length))).2.prev_angles =
      (runRods (s.rods.zip (zeroAction s.rods.length)) s.prev_positions s.prev_angles).2.2 := by
    simp only [process_data, if_pos (shapeOK_zeroAction s.rods.length)]
  obtain ⟨hp, ha⟩ := runRods_zero_smoothing s.rods s.prev_positions s.prev_angles r hnd hmem
  rw [hpd, had, hp, ha]
  refine ⟨by congr 1; ring, ?_, by congr 1; ring, ?_, ?_, ?_⟩
  · simp only [Option.getD_some]
    have h2 : 0.9 * (s.prev_positions r).getD 0.5 + 0.1 * (0.5 + 0 * 0.5) - 0.5
        = 0.9 * ((s.prev_positions r).getD 0.5 - 0.5) := by ring
    rw [h2, abs_mul, abs_of_nonneg (by norm_num : (0 : ℚ) ≤ 0.9)]
  · simp only [Option.getD_some]
    have h3 : 0.9 * (s.prev_angles r).getD 0.0 + 0.1 * (0 * 0.75)
        = 0.9 * (s.prev_angles r).getD 0.0 := by ring
    rw [h3, abs_mul, abs_of_nonneg (by norm_num : (0 : ℚ) ≤ 0.9)]
  · intro h
    simp only [Option.getD_some]
    rw [h]
    norm_num
  · intro h
    simp only [Option.getD_some]
    rw [h]
    norm_num

/-- Witness for C5: rod 0 of the fresh red agent under the zero
action. -/
theorem C5_witness :
    (process_data (init Team.red) (some (zeroAction (init Team.red).rods.length))).2.prev_positions 0 =
      some (0.9 * ((init Team.red).prev_positions 0).getD 0.5 + 0.1 * 0.5) ∧
    |((process_data (init Team.red) (some (zeroAction (init Team.red).rods.length))).2.prev_positions 0).getD 0.5 - 0.5|
      = 0.9 * |((init Team.red).prev_positions 0).getD 0.5 - 0.5| ∧
    (process_data (init Team.red) (some (zeroAction (init Team.red).rods.length))).2.prev_angles 0 =
      some (0.9 * ((init Team.red).prev_angles 0).getD 0.0) ∧
    |((process_data (init Team.red) (some (zeroAction (init Team.red).rods.length))).2.prev_angles 0).getD 0.0|
      = 0.9 * |((init Team.red).prev_angles 0).getD 0.0| ∧
    (((init Team.red).prev_positions 0).getD 0.5 = 0.5 →
      ((process_data (init Team.red) (some (zeroAction (init Team.red).rods.length))).2.prev_positions 0).getD 0.5 = 0.5) ∧
    (((init Team.red).prev_angles 0).getD 0.0 = 0 →
      ((process_data (init Team.red) (some (zeroAction (init Team.red).rods.length))).2.prev_angles 0).getD 0.0 = 0) :=
  C5_zero_action_smoothing (init Team.red) (by decide) 0 (by decide)
